import Mathlib

/-!
Verification development for the stock-market dashboard (src/app.py).

The application's data pipeline is shallowly embedded here:
  * rows of the combined table are `Row` records (date as an integer day
    number, prices/volume as rationals, the `Source` tag as a string);
  * `load_stock_data` embeds the loader at src/app.py lines 35-65,
    including its undefined reference to `msft_data` (modelled as an
    uncaught NameError) and its FileNotFoundError handler;
  * `filtered_data` embeds the two date filters at lines 116-117;
  * `stock_data` embeds the per-stock substring slice at line 129;
  * the presentation computations (metrics, returns, statistics) embed
    lines 128-140, 227-243 and 279-291.
-/

/-- Substring test on character lists: does `needle` occur as a prefix of
`hay`?  Helper for `containsSub`. -/
def startsWithChars : List Char → List Char → Bool
  | _, [] => true
  | [], _ :: _ => false
  | a :: ha, b :: nb => a == b && startsWithChars ha nb

/-- Substring containment on character lists: does `needle` occur
contiguously anywhere in `hay`? -/
def containsSub : List Char → List Char → Bool
  | hay, needle =>
    startsWithChars hay needle ||
      match hay with
      | [] => false
      | _ :: t => containsSub t needle

/-- Embedding of Python substring containment (`str.contains` on a pandas
string column): `strContains hay needle` is true iff `needle` occurs in
`hay`. -/
def strContains (hay needle : String) : Bool :=
  containsSub hay.data needle.data

/-- One row of a raw CSV file before tagging: Date, Open, High, Low,
Close, Volume.  Dates are integer day numbers (calendar dates are totally
ordered; only their order matters to the code). -/
structure RawRow where
  date : Int
  open_ : ℚ
  high : ℚ
  low : ℚ
  close : ℚ
  volume : ℚ
deriving DecidableEq, Repr

/-- One row of the combined table: a raw row plus the `Source` tag added
at src/app.py lines 43 and 47. -/
structure Row where
  date : Int
  open_ : ℚ
  high : ℚ
  low : ℚ
  close : ℚ
  volume : ℚ
  source : String
deriving DecidableEq, Repr

/-- Python exceptions the loader can raise: `FileNotFoundError` from
`pd.read_csv` on an absent path, `PermissionError` from `pd.read_csv` on
a present but unreadable path, and `NameError` from evaluating the
undefined name `msft_data` at src/app.py line 52.  Only
`FileNotFoundError` is caught by the handler at line 63. -/
inductive PyErr where
  | fileNotFound : String → PyErr
  | permissionError : String → PyErr
  | nameError : String → PyErr
deriving DecidableEq, Repr

/-- A file system: an association list from path to file content.  A
path absent from the list does not exist; a path mapped to `none` exists
but is unreadable (e.g. permission denied); a path mapped to
`some rows` is readable with those parsed CSV rows. -/
abbrev FileSys : Type := List (String × Option (List RawRow))

/-- Embedding of `pd.read_csv(path)`: returns the file's rows, raises
`FileNotFoundError` when the path is absent, and raises
`PermissionError` when the path exists but is unreadable. -/
def read_csv (fs : FileSys) (path : String) : Except PyErr (List RawRow) :=
  match fs.find? (fun p => p.1 == path) with
  | some (_, some rows) => Except.ok rows
  | some (_, none) => Except.error (PyErr.permissionError path)
  | none => Except.error (PyErr.fileNotFound path)

/-- Embedding of `df['Source'] = label` (src/app.py lines 43, 47): tag
every row of a raw table with a source label. -/
def tag_rows (rows : List RawRow) (label : String) : List Row :=
  rows.map (fun r =>
    { date := r.date, open_ := r.open_, high := r.high, low := r.low,
      close := r.close, volume := r.volume, source := label })

/-- The variable `msft_data` is referenced at src/app.py lines 52, 59 and
61 but never assigned: evaluating it raises `NameError`, modelled as this
always-failing computation. -/
def msft_lookup : Except PyErr (List Row) :=
  Except.error (PyErr.nameError "msft_data")

/-- The single user-facing message emitted by the loader's
`except FileNotFoundError` handler (src/app.py line 64; text abridged). -/
def load_error_msg : String := "Stock data files not found."

/-- Embedding of `load_stock_data` (src/app.py lines 35-65).  The result
is `Except.error e` when an exception `e` escapes the function (only
`NameError` can: the handler catches only `FileNotFoundError`), and
`Except.ok (msgs, out)` otherwise, where `msgs` lists the user-facing
error messages the function emitted and `out` is `some` quadruple
(combined, aapl, googl, msft) on success or `none` for the all-`None`
return of the handler.  Column-name stripping and date parsing at lines
53-56 are identity on this typed row model and are not represented. -/
def load_stock_data (fs : FileSys) :
    Except PyErr (List String × Option (List Row × List Row × List Row × List Row)) :=
  let body : Except PyErr (List Row × List Row × List Row × List Row) :=
    match read_csv fs "AAPL.csv" with
    | Except.error e => Except.error e
    | Except.ok aaplRaw =>
      let aapl_data := tag_rows aaplRaw "Kaggle_AAPL"
      match read_csv fs "NFLX.csv" with
      | Except.error e => Except.error e
      | Except.ok googlRaw =>
        let googl_data := tag_rows googlRaw "Kaggle_NFLX"
        match msft_lookup with
        | Except.error e => Except.error e
        | Except.ok msft_data =>
          let combined_data := aapl_data ++ googl_data ++ msft_data
          Except.ok (combined_data, aapl_data, googl_data, msft_data)
  match body with
  | Except.ok quad => Except.ok ([], some quad)
  | Except.error (PyErr.fileNotFound _) => Except.ok ([load_error_msg], none)
  | Except.error e => Except.error e

/-- The second user-facing message, emitted by the top-level `else`
branch at src/app.py line 346 (text abridged). -/
def unable_msg : String := "Unable to load stock data."

/-- Embedding of the top-level branch at src/app.py lines 68-70 and
345-346: the whole dashboard (charts, metrics, tabs) is rendered only
inside `if combined_data is not None`.  Returns the emitted messages and
whether the dashboard branch was entered. -/
def app_top (fs : FileSys) : Except PyErr (List String × Bool) :=
  match load_stock_data fs with
  | Except.error e => Except.error e
  | Except.ok (msgs, some _) => Except.ok (msgs, true)
  | Except.ok (msgs, none) => Except.ok (msgs ++ [unable_msg], false)

/-- The selectable tickers (src/app.py line 78). -/
def available_stocks : List String := ["AAPL", "GOOGL"]

/-- Embedding of the end-date correction at src/app.py lines 104-106: if
`start_date >= end_date`, the end date used for filtering becomes
`start_date + timedelta(days=1)`; otherwise it is unchanged.  The input
is never rejected. -/
def adjusted_end_date (start_date end_date : Int) : Int :=
  if start_date ≥ end_date then start_date + 1 else end_date

/-- Embedding of the Filter Stage (src/app.py lines 116-117): two
successive date filters on the combined table.  Note that no filter on
the `Source` column occurs here. -/
def filtered_data (combined : List Row) (start_date end_date : Int) : List Row :=
  let step1 := combined.filter (fun r => start_date ≤ r.date)
  step1.filter (fun r => r.date ≤ end_date)

/-- Embedding of the per-stock slice
`filtered_data[filtered_data['Source'].str.contains(stock)]`
(src/app.py lines 129, 147, 172, ...). -/
def stock_data (df : List Row) (stock : String) : List Row :=
  df.filter (fun r => strContains r.source stock)

/-- The closing-price column of a table slice. -/
def closes (df : List Row) : List ℚ := df.map Row.close

/-- The volume column of a table slice. -/
def volumes (df : List Row) : List ℚ := df.map Row.volume

/-- One overview metric card (src/app.py lines 136-140): the stock name,
its latest closing price and its percentage change over the slice. -/
structure Metric where
  stock : String
  latest_price : ℚ
  change_pct : ℚ
deriving DecidableEq, Repr

/-- Embedding of the metric computation at src/app.py lines 128-140 for
one stock: if the per-stock slice is empty the metric is skipped
(`none`); otherwise `latest_price = Close.iloc[-1]` and
`change_pct = (Close.iloc[-1] - Close.iloc[0]) / Close.iloc[0] * 100`. -/
def stock_metric (df : List Row) (stock : String) : Option Metric :=
  match h : stock_data df stock with
  | [] => none
  | r :: rest =>
      let sd := r :: rest
      let latest_price := (sd.getLast (by simp)).close
      let price_change := (sd.getLast (by simp)).close - r.close
      some { stock := stock, latest_price := latest_price,
             change_pct := price_change / r.close * 100 }

/-- Embedding of the metric loop at src/app.py line 128: metrics for the
first four selected stocks, empty slices skipped. -/
def overview_metrics (df : List Row) (selected : List String) : List Metric :=
  (selected.take 4).filterMap (stock_metric df)

/-- Embedding of `Series.pct_change()` applied to a closing-price column
(src/app.py line 231), restricted to its defined entries: entry `i ≥ 1`
is `close[i] / close[i-1] - 1`.  The undefined (NaN) entry at position 0
is omitted; pandas `cumprod` skips it. -/
def pct_change_go : ℚ → List ℚ → List ℚ
  | _, [] => []
  | prev, c :: rest => (c / prev - 1) :: pct_change_go c rest

/-- Defined entries of `pct_change` of a closing-price series. -/
def pct_change : List ℚ → List ℚ
  | [] => []
  | c :: rest => pct_change_go c rest

/-- Running products of `(1 + daily_return)` minus 1: helper carrying the
product accumulated so far. -/
def cum_returns_go : ℚ → List ℚ → List ℚ
  | _, [] => []
  | acc, r :: rest => (acc * (1 + r) - 1) :: cum_returns_go (acc * (1 + r)) rest

/-- Embedding of `(1 + returns_data).cumprod() - 1` (src/app.py line 243)
for one stock's closing-price series: the cumulative return at each
defined point. -/
def cum_returns (closeSeries : List ℚ) : List ℚ :=
  cum_returns_go 1 (pct_change closeSeries)

/-- Embedding of `Series.mean()`: arithmetic mean (0 on an empty series
under the rational convention `x / 0 = 0`; only used on non-empty
slices). -/
def series_mean (xs : List ℚ) : ℚ := xs.sum / (xs.length : ℚ)

/-- Embedding of the sample variance underlying `Series.std()` (pandas
default `ddof=1`): sum of squared deviations from the mean divided by
`n - 1`. -/
def series_var_sample (xs : List ℚ) : ℚ :=
  ((xs.map (fun x => (x - series_mean xs) ^ 2)).sum) / ((xs.length : ℚ) - 1)

/-- Embedding of `Series.std()` (pandas default `ddof=1`): square root of
the sample variance, as a real number. -/
noncomputable def series_std (xs : List ℚ) : ℝ :=
  Real.sqrt ((series_var_sample xs : ℚ) : ℝ)

/-- Embedding of `Series.min()` on a non-empty series: left fold of
`min` (0 on an empty series; only used on non-empty slices). -/
def series_min : List ℚ → ℚ
  | [] => 0
  | x :: xs => xs.foldl min x

/-- Embedding of `Series.max()` on a non-empty series: left fold of
`max` (0 on an empty series; only used on non-empty slices). -/
def series_max : List ℚ → ℚ
  | [] => 0
  | x :: xs => xs.foldl max x

/-- One row of the statistical-summary table (src/app.py lines 283-290). -/
structure StockStats where
  stock : String
  mean_price : ℚ
  std_dev : ℝ
  min_price : ℚ
  max_price : ℚ
  total_volume : ℚ

/-- Embedding of the per-stock statistics record at src/app.py lines
279-291: skipped (`none`) when the slice is empty, otherwise the mean,
sample standard deviation, min and max of `Close` and the sum of
`Volume`, all over this stock's own slice. -/
noncomputable def stats_for (df : List Row) (stock : String) : Option StockStats :=
  match stock_data df stock with
  | [] => none
  | r :: rest =>
      let sd := r :: rest
      some { stock := stock,
             mean_price := series_mean (closes sd),
             std_dev := series_std (closes sd),
             min_price := series_min (closes sd),
             max_price := series_max (closes sd),
             total_volume := (volumes sd).sum }

/-- Embedding of the `stats_data` loop (src/app.py lines 279-291):
records for the selected stocks, empty slices skipped. -/
noncomputable def stats_data (df : List Row) (selected : List String) : List StockStats :=
  selected.filterMap (stats_for df)

/-! Concrete sample data used to exercise the theorems below. -/

/-- A sample raw CSV row. -/
def rawSample : RawRow :=
  { date := 0, open_ := 1, high := 2, low := 1, close := 2, volume := 10 }

/-- A second sample raw CSV row. -/
def rawSample2 : RawRow :=
  { date := 1, open_ := 2, high := 3, low := 2, close := 3, volume := 20 }

/-- A sample combined-table row tagged `Kaggle_AAPL`. -/
def sampleA : Row :=
  { date := 0, open_ := 1, high := 2, low := 1, close := 2, volume := 10,
    source := "Kaggle_AAPL" }

/-- A second sample row tagged `Kaggle_AAPL`, one day later. -/
def sampleA2 : Row :=
  { date := 1, open_ := 2, high := 3, low := 2, close := 3, volume := 20,
    source := "Kaggle_AAPL" }

/-- A sample combined-table row tagged `Kaggle_NFLX`. -/
def sampleN : Row :=
  { date := 0, open_ := 4, high := 5, low := 4, close := 5, volume := 30,
    source := "Kaggle_NFLX" }

/-- A file system holding both referenced CSV files, readable. -/
def fs_both : FileSys :=
  [("AAPL.csv", some [rawSample]), ("NFLX.csv", some [rawSample])]

/-- A second file system holding both referenced CSV files, readable. -/
def fs_bug : FileSys :=
  [("AAPL.csv", some [rawSample, rawSample2]), ("NFLX.csv", some [rawSample])]

/-- The empty file system: every path is missing. -/
def fs_empty : FileSys := []

/-- A file system in which `AAPL.csv` exists but is unreadable (e.g.
permission denied) while `NFLX.csv` is present and readable. -/
def fs_unreadable : FileSys := [("AAPL.csv", none), ("NFLX.csv", some [rawSample])]

/-! ## Claims -/

/-- Claim C1, counterexample: the Filter Stage does not restrict the
`Source` column at all.  With combined table `[sampleN]` (one row tagged
`Kaggle_NFLX`), selected set `S = ["AAPL"]` (non-empty) and date interval
`[0, 0]`, the row `sampleN` appears in the Filter Stage output although
its source identifier is not a member of `S`. -/
theorem filter_source_membership_counterexample :
    sampleN ∈ filtered_data [sampleN] 0 0 ∧
      sampleN.source ∉ (["AAPL"] : List String) := by
  decide

/-- Claim C1, amended: the Filter Stage restricts rows only by date, so a
row of its output may carry a source identifier outside the selected set
`S`; membership is enforced only downstream, where for each selected
stock `s` the per-stock slice keeps exactly the rows whose source
identifier contains `s` as a substring.  Every row of such a per-stock
slice has a source identifier containing `s`. -/
theorem stock_slice_source_containment (combined : List Row)
    (start_date end_date : Int) (s : String) :
    ∀ r ∈ stock_data (filtered_data combined start_date end_date) s,
      strContains r.source s = true := by
  intro r hr
  unfold stock_data at hr
  simp only [List.mem_filter] at hr
  simpa using hr.2

/-- Witness for the amended C1 at a concrete input. -/
theorem stock_slice_source_containment_witness :
    sampleA ∈ stock_data (filtered_data [sampleA] 0 0) "AAPL" ∧
      strContains sampleA.source "AAPL" = true :=
  ⟨by decide,
    stock_slice_source_containment [sampleA] 0 0 "AAPL" sampleA (by decide)⟩

/-- Claim C4: for every date interval with `start ≤ end`, every row of
the Filter Stage output has a date `d` with `start ≤ d ≤ end` (inclusive
on both ends). -/
theorem filter_date_in_interval (combined : List Row)
    (start_date end_date : Int) (hse : start_date ≤ end_date) :
    ∀ r ∈ filtered_data combined start_date end_date,
      start_date ≤ r.date ∧ r.date ≤ end_date := by
  intro r hr
  unfold filtered_data at hr
  simp only [List.mem_filter, decide_eq_true_eq] at hr
  exact ⟨hr.1.2, hr.2⟩

/-- Witness for C4 at a concrete input. -/
theorem filter_date_in_interval_witness :
    (0 : Int) ≤ 1 ∧ (0 : Int) ≤ sampleA.date ∧ sampleA.date ≤ 1 :=
  ⟨by decide, filter_date_in_interval [sampleA] 0 1 (by decide) sampleA (by decide)⟩

/-- Claim C5: if the chosen start date is not before the chosen end date
(`start ≥ end`), the end date used for filtering becomes
`start + 1 day` and the input is not rejected (the function still yields
a usable interval); if `start < end`, both dates are used unchanged. -/
theorem end_date_silent_correction (start_date end_date : Int) :
    (end_date ≤ start_date → adjusted_end_date start_date end_date = start_date + 1) ∧
      (start_date < end_date → adjusted_end_date start_date end_date = end_date) := by
  constructor
  · intro h
    unfold adjusted_end_date
    rw [if_pos h]
  · intro h
    unfold adjusted_end_date
    rw [if_neg (not_le.mpr h)]

/-- Witness for C5: one input with `start ≥ end`, one with `start < end`. -/
theorem end_date_silent_correction_witness :
    adjusted_end_date 5 3 = 5 + 1 ∧ adjusted_end_date 2 7 = 7 :=
  ⟨(end_date_silent_correction 5 3).1 (by decide),
    (end_date_silent_correction 2 7).2 (by decide)⟩

/-- Helper: `load_stock_data` never returns a successful quadruple, for
any file system: the reference to the undefined `msft_data` is reached
on every path that survives the two file reads. -/
lemma load_stock_data_no_success (fs : FileSys) (msgs : List String)
    (quad : List Row × List Row × List Row × List Row) :
    load_stock_data fs ≠ Except.ok (msgs, some quad) := by
  unfold load_stock_data
  cases hA : read_csv fs "AAPL.csv" with
  | error e => cases e <;> simp [hA]
  | ok r1 =>
    cases hN : read_csv fs "NFLX.csv" with
    | error e => cases e <;> simp [hA, hN]
    | ok r2 => simp [hA, hN, msft_lookup]

/-- Claim C2: whenever both referenced CSV files (`AAPL.csv` and
`NFLX.csv`) are present and readable, `load_stock_data` still fails: the
third per-ticker dataset (`msft_data`) is referenced but never defined,
raising a `NameError` that the `except FileNotFoundError` handler does
not catch; moreover the load never succeeds on any file system. -/
theorem load_stock_data_always_fails (fs : FileSys)
    (h1 : ∃ rows, read_csv fs "AAPL.csv" = Except.ok rows)
    (h2 : ∃ rows, read_csv fs "NFLX.csv" = Except.ok rows) :
    load_stock_data fs = Except.error (PyErr.nameError "msft_data") ∧
      ∀ (fs2 : FileSys) (msgs : List String)
        (quad : List Row × List Row × List Row × List Row),
        load_stock_data fs2 ≠ Except.ok (msgs, some quad) := by
  obtain ⟨r1, e1⟩ := h1
  obtain ⟨r2, e2⟩ := h2
  refine ⟨?_, fun fs2 msgs quad => load_stock_data_no_success fs2 msgs quad⟩
  unfold load_stock_data
  simp [e1, e2, msft_lookup]

/-- Witness for C2 at a concrete file system holding both files. -/
theorem load_stock_data_always_fails_witness :
    (∃ rows, read_csv fs_both "AAPL.csv" = Except.ok rows) ∧
      (∃ rows, read_csv fs_both "NFLX.csv" = Except.ok rows) ∧
      load_stock_data fs_both = Except.error (PyErr.nameError "msft_data") :=
  ⟨⟨[rawSample], by rfl⟩, ⟨[rawSample], by rfl⟩,
    (load_stock_data_always_fails fs_both ⟨[rawSample], by rfl⟩
      ⟨[rawSample], by rfl⟩).1⟩

/-- Claim C3, counterexample: a required file that exists but is
unreadable refutes the claim.  On `fs_unreadable`, where `AAPL.csv`
exists but cannot be read, `pd.read_csv` raises `PermissionError`, which
the `except FileNotFoundError` handler at src/app.py line 63 does not
catch: the loader emits no user-facing load-failure message and does not
return the all-`None` quadruple — it aborts with an uncaught
exception. -/
theorem missing_file_single_failure_counterexample :
    load_stock_data fs_unreadable =
        Except.error (PyErr.permissionError "AAPL.csv") ∧
      load_stock_data fs_unreadable ≠ Except.ok ([load_error_msg], none) := by
  refine ⟨rfl, ?_⟩
  intro h
  exact Except.noConfusion
    ((show load_stock_data fs_unreadable =
        Except.error (PyErr.permissionError "AAPL.csv") from rfl).symm.trans h)

/-- Claim C3, amended: whenever a required input file is absent — and
the exception actually raised is `FileNotFoundError`, i.e. no
earlier-read file is present but unreadable — `load_stock_data` emits
exactly one user-facing load-failure message and yields no data (the
all-`None` quadruple, i.e. `none`); consequently the dashboard branch is
not entered, so no charts or metrics are rendered.  A present but
unreadable file instead raises `PermissionError`, which the handler does
not catch (see the counterexample); in neither case is there a
partial-success path. -/
theorem missing_file_single_failure (fs : FileSys)
    (h : read_csv fs "AAPL.csv" = Except.error (PyErr.fileNotFound "AAPL.csv") ∨
         ((∃ rows, read_csv fs "AAPL.csv" = Except.ok rows) ∧
           read_csv fs "NFLX.csv" = Except.error (PyErr.fileNotFound "NFLX.csv"))) :
    load_stock_data fs = Except.ok ([load_error_msg], none) ∧
      app_top fs = Except.ok ([load_error_msg, unable_msg], false) := by
  have hload : load_stock_data fs = Except.ok ([load_error_msg], none) := by
    rcases h with h | ⟨⟨r1, e1⟩, h⟩
    · unfold load_stock_data
      simp [h]
    · unfold load_stock_data
      simp [e1, h]
  refine ⟨hload, ?_⟩
  unfold app_top
  rw [hload]
  rfl

/-- Witness for C3: the empty file system is missing `AAPL.csv`. -/
theorem missing_file_single_failure_witness :
    read_csv fs_empty "AAPL.csv" = Except.error (PyErr.fileNotFound "AAPL.csv") ∧
      load_stock_data fs_empty = Except.ok ([load_error_msg], none) ∧
      app_top fs_empty = Except.ok ([load_error_msg, unable_msg], false) := by
  refine ⟨rfl, ?_⟩
  have h := missing_file_single_failure fs_empty (Or.inl rfl)
  exact ⟨h.1, h.2⟩

/-- Claim C8 (code-bug evidence): the round-trip property — the
concatenation of the per-source tables returned by the Data Loader
reproduces its combined table — is indeed how line 59 builds
`combined_data`, but the loader never returns: even with both referenced
CSV files present, evaluation aborts with the uncaught `NameError` on
`msft_data` before any table is returned, so the quadruple the property
speaks about is never produced. -/
theorem round_trip_blocked_by_name_error :
    load_stock_data fs_bug = Except.error (PyErr.nameError "msft_data") := by
  rfl

/-- Helper: the metric of an empty per-stock slice is skipped. -/
lemma stock_metric_of_nil (df : List Row) (s : String)
    (h : stock_data df s = []) : stock_metric df s = none := by
  unfold stock_metric
  split
  · rfl
  · rename_i heq
    rw [h] at heq
    cases heq

/-- Helper: the statistics record of an empty per-stock slice is
skipped. -/
lemma stats_for_of_nil (df : List Row) (s : String)
    (h : stock_data df s = []) : stats_for df s = none := by
  unfold stats_for
  split
  · rfl
  · rename_i r rest heq
    rw [h] at heq
    cases heq

/-- Claim C6: for every per-stock slice of the filtered table, if the
slice is non-empty then `latest_price` is the close of its last row and
`change_pct` is `(last_close - first_close) / first_close * 100`; if the
slice is empty the metric is skipped (`none`), not rendered with a zero
or default value. -/
theorem metric_latest_and_change (df : List Row) (s : String) :
    (stock_data df s = [] → stock_metric df s = none) ∧
      ∀ (r : Row) (rest : List Row), stock_data df s = r :: rest →
        stock_metric df s =
          some { stock := s,
                 latest_price := ((r :: rest).getLast (List.cons_ne_nil r rest)).close,
                 change_pct :=
                   (((r :: rest).getLast (List.cons_ne_nil r rest)).close - r.close)
                     / r.close * 100 } := by
  constructor
  · exact stock_metric_of_nil df s
  · intro r rest h
    unfold stock_metric
    split
    · rename_i heq
      rw [h] at heq
      cases heq
    · rename_i r2 rest2 heq
      rw [h] at heq
      cases heq
      rfl

/-- Witness for C6: an empty slice is skipped; a non-empty slice yields
the last close and the relative change of the first close. -/
theorem metric_latest_and_change_witness :
    stock_metric [] "AAPL" = none ∧
      stock_metric [sampleA, sampleA2] "AAPL" =
        some { stock := "AAPL",
               latest_price :=
                 (([sampleA, sampleA2]).getLast
                   (List.cons_ne_nil sampleA [sampleA2])).close,
               change_pct :=
                 ((([sampleA, sampleA2]).getLast
                     (List.cons_ne_nil sampleA [sampleA2])).close - sampleA.close)
                   / sampleA.close * 100 } :=
  ⟨(metric_latest_and_change [] "AAPL").1 rfl,
    (metric_latest_and_change [sampleA, sampleA2] "AAPL").2 sampleA [sampleA2]
      (by decide)⟩

/-- Claim C10: per-stock slices are selected by substring containment of
the ticker in the row's `Source` label; since loaded rows are tagged only
`Kaggle_AAPL` and `Kaggle_NFLX` while the selectable tickers are `AAPL`
and `GOOGL`, the slice for `GOOGL` is always empty (its metric and its
statistics record are omitted), and a `Kaggle_NFLX` row lies in the slice
of no selectable ticker. -/
theorem googl_empty_nflx_unreachable (df : List Row)
    (htag : ∀ r ∈ df, r.source = "Kaggle_AAPL" ∨ r.source = "Kaggle_NFLX") :
    stock_data df "GOOGL" = [] ∧
      stock_metric df "GOOGL" = none ∧
      stats_for df "GOOGL" = none ∧
      ∀ r ∈ df, r.source = "Kaggle_NFLX" →
        ∀ s ∈ available_stocks, r ∉ stock_data df s := by
  have hG : stock_data df "GOOGL" = [] := by
    unfold stock_data
    rw [List.filter_eq_nil_iff]
    intro r hr
    rcases htag r hr with h | h <;> rw [h] <;> decide
  refine ⟨hG, stock_metric_of_nil df "GOOGL" hG, stats_for_of_nil df "GOOGL" hG, ?_⟩
  intro r _ hN s hs hmem
  unfold stock_data at hmem
  simp only [List.mem_filter] at hmem
  have hc := hmem.2
  rw [hN] at hc
  have hs2 : s = "AAPL" ∨ s = "GOOGL" := by
    simpa [available_stocks] using hs
  rcases hs2 with h | h <;> rw [h] at hc <;> exact absurd hc (by decide)

/-- Witness for C10 at a concrete two-row table. -/
theorem googl_empty_nflx_unreachable_witness :
    (∀ r ∈ [sampleA, sampleN], r.source = "Kaggle_AAPL" ∨ r.source = "Kaggle_NFLX") ∧
      stock_data [sampleA, sampleN] "GOOGL" = [] ∧
      sampleN ∉ stock_data [sampleA, sampleN] "AAPL" :=
  ⟨by decide,
    (googl_empty_nflx_unreachable [sampleA, sampleN] (by decide)).1,
    (googl_empty_nflx_unreachable [sampleA, sampleN] (by decide)).2.2.2 sampleN
      (by decide) rfl "AAPL" (by decide)⟩

/-- Helper: the last entry of the running cumulative-return list built
from accumulator `acc` over daily returns `r :: l` is
`acc * Π (1 + rᵢ) - 1`. -/
lemma cum_returns_go_getLast (l : List ℚ) :
    ∀ (acc r : ℚ),
      (cum_returns_go acc (r :: l)).getLast? =
        some (acc * (((r :: l).map (fun x => 1 + x)).prod) - 1) := by
  induction l with
  | nil =>
    intro acc r
    simp only [cum_returns_go, List.map_cons, List.map_nil, List.prod_cons,
      List.prod_nil, List.getLast?_singleton]
    congr 1
    ring
  | cons r2 t2 ih =>
    intro acc r
    have h1 : cum_returns_go acc (r :: r2 :: t2) =
        (acc * (1 + r) - 1) :: cum_returns_go (acc * (1 + r)) (r2 :: t2) := rfl
    have h2 : cum_returns_go (acc * (1 + r)) (r2 :: t2) =
        (acc * (1 + r) * (1 + r2) - 1) ::
          cum_returns_go (acc * (1 + r) * (1 + r2)) t2 := rfl
    rw [h1, h2, List.getLast?_cons_cons, ← h2, ih]
    simp only [List.map_cons, List.prod_cons]
    congr 1
    ring

/-- Helper, telescoping: the product of `1 + daily_return` over the
returns computed from previous close `prev` and the remaining closes `l`
equals `last / prev`, provided no close is zero. -/
lemma pct_change_go_prod (l : List ℚ) :
    ∀ prev : ℚ, prev ≠ 0 → (∀ x ∈ l, x ≠ 0) →
      ((pct_change_go prev l).map (fun x => 1 + x)).prod = l.getLastD prev / prev := by
  induction l with
  | nil =>
    intro prev hp _
    simp [pct_change_go, div_self hp]
  | cons c t ih =>
    intro prev hp hx
    have hc : c ≠ 0 := hx c (by simp)
    have ht : ∀ x ∈ t, x ≠ 0 := fun x hxt => hx x (by simp [hxt])
    simp only [pct_change_go, List.map_cons, List.prod_cons]
    rw [ih c hc ht]
    have h1 : 1 + (c / prev - 1) = c / prev := by ring
    rw [h1, List.getLastD_cons, div_mul_div_comm, mul_comm prev c,
      mul_div_mul_left _ _ hc]

/-- Claim C7: for every closing-price series with at least two points
(and, as for real prices, no zero close), the cumulative return at the
final point — the running product of `1 + daily_return` minus 1, with
`daily_return[i] = close[i]/close[i-1] - 1` — equals
`close[n-1] / close[0] - 1`. -/
theorem cumulative_return_telescopes (closeSeries : List ℚ)
    (hlen : 2 ≤ closeSeries.length) (hnz : ∀ x ∈ closeSeries, x ≠ 0) :
    ∀ c0 cl : ℚ, closeSeries.head? = some c0 → closeSeries.getLast? = some cl →
      (cum_returns closeSeries).getLast? = some (cl / c0 - 1) := by
  intro c0 cl h0 hl
  cases closeSeries with
  | nil => cases h0
  | cons c rest =>
    cases rest with
    | nil => simp at hlen
    | cons c2 t =>
      have hc0 : c0 = c := by
        simp only [List.head?_cons, Option.some.injEq] at h0
        exact h0.symm
      subst hc0
      have hc : c0 ≠ 0 := hnz c0 (by simp)
      have htail : ∀ x ∈ c2 :: t, x ≠ 0 := fun x hx => hnz x (by simp [hx])
      have hstep : pct_change (c0 :: c2 :: t) =
          (c2 / c0 - 1) :: pct_change_go c2 t := rfl
      have hlast : (c2 :: t).getLastD c0 = cl := by
        rw [List.getLastD_eq_getLast?]
        rw [List.getLast?_cons_cons] at hl
        rw [hl]
        rfl
      unfold cum_returns
      rw [hstep, cum_returns_go_getLast, ← hstep]
      have hprod : ((pct_change (c0 :: c2 :: t)).map (fun x => 1 + x)).prod =
          (c2 :: t).getLastD c0 / c0 := by
        have := pct_change_go_prod (c2 :: t) c0 hc htail
        exact this
      rw [hprod, hlast, one_mul]

/-- Witness for C7 on the series `[1, 2]`: the final cumulative return is
`2 / 1 - 1 = 1`. -/
theorem cumulative_return_telescopes_witness :
    2 ≤ ([1, 2] : List ℚ).length ∧ (∀ x ∈ ([1, 2] : List ℚ), x ≠ 0) ∧
      (cum_returns [1, 2]).getLast? = some ((2 : ℚ) / 1 - 1) :=
  ⟨by decide, by decide,
    cumulative_return_telescopes [1, 2] (by decide) (by decide) 1 2 rfl rfl⟩

/-- Helper: a left fold of `min` over a list lands in the list or on the
initial value. -/
lemma foldl_min_mem (xs : List ℚ) : ∀ a : ℚ, xs.foldl min a ∈ a :: xs := by
  induction xs with
  | nil => intro a; simp
  | cons x t ih =>
    intro a
    rw [List.foldl_cons]
    rcases List.mem_cons.mp (ih (min a x)) with h1 | h1
    · rcases min_choice a x with hm | hm
      · rw [h1, hm]; exact List.mem_cons_self _ _
      · rw [h1, hm]; exact List.mem_cons_of_mem _ (List.mem_cons_self _ _)
    · exact List.mem_cons_of_mem _ (List.mem_cons_of_mem _ h1)

/-- Helper: a left fold of `min` is a lower bound of the initial value
and every list element. -/
lemma foldl_min_le (xs : List ℚ) : ∀ a : ℚ, ∀ y ∈ a :: xs, xs.foldl min a ≤ y := by
  induction xs with
  | nil =>
    intro a y hy
    simp only [List.mem_singleton] at hy
    simp [hy]
  | cons x t ih =>
    intro a y hy
    rw [List.foldl_cons]
    have hbase : t.foldl min (min a x) ≤ min a x :=
      ih (min a x) (min a x) (List.mem_cons_self _ _)
    rcases List.mem_cons.mp hy with h1 | h1
    · rw [h1]; exact le_trans hbase (min_le_left a x)
    · rcases List.mem_cons.mp h1 with h2 | h2
      · rw [h2]; exact le_trans hbase (min_le_right a x)
      · exact ih (min a x) y (List.mem_cons_of_mem _ h2)

/-- Helper: a left fold of `max` over a list lands in the list or on the
initial value. -/
lemma foldl_max_mem (xs : List ℚ) : ∀ a : ℚ, xs.foldl max a ∈ a :: xs := by
  induction xs with
  | nil => intro a; simp
  | cons x t ih =>
    intro a
    rw [List.foldl_cons]
    rcases List.mem_cons.mp (ih (max a x)) with h1 | h1
    · rcases max_choice a x with hm | hm
      · rw [h1, hm]; exact List.mem_cons_self _ _
      · rw [h1, hm]; exact List.mem_cons_of_mem _ (List.mem_cons_self _ _)
    · exact List.mem_cons_of_mem _ (List.mem_cons_of_mem _ h1)

/-- Helper: a left fold of `max` is an upper bound of the initial value
and every list element. -/
lemma foldl_max_ge (xs : List ℚ) : ∀ a : ℚ, ∀ y ∈ a :: xs, y ≤ xs.foldl max a := by
  induction xs with
  | nil =>
    intro a y hy
    simp only [List.mem_singleton] at hy
    simp [hy]
  | cons x t ih =>
    intro a y hy
    rw [List.foldl_cons]
    have hbase : max a x ≤ t.foldl max (max a x) :=
      ih (max a x) (max a x) (List.mem_cons_self _ _)
    rcases List.mem_cons.mp hy with h1 | h1
    · rw [h1]; exact le_trans (le_max_left a x) hbase
    · rcases List.mem_cons.mp h1 with h2 | h2
      · rw [h2]; exact le_trans (le_max_right a x) hbase
      · exact ih (max a x) y (List.mem_cons_of_mem _ h2)

/-- Helper: a sum of squared deviations is non-negative. -/
lemma sum_sq_nonneg (xs : List ℚ) (m : ℚ) :
    0 ≤ (xs.map (fun x => (x - m) ^ 2)).sum := by
  apply List.sum_nonneg
  intro y hy
  simp only [List.mem_map] at hy
  obtain ⟨x, _, rfl⟩ := hy
  positivity

/-- Helper: the sample variance is non-negative. -/
lemma series_var_sample_nonneg (xs : List ℚ) : 0 ≤ series_var_sample xs := by
  cases xs with
  | nil => simp [series_var_sample, series_mean]
  | cons x t =>
    unfold series_var_sample
    apply div_nonneg (sum_sq_nonneg _ _)
    have h1 : (1 : ℚ) ≤ ((x :: t).length : ℚ) := by
      have : 1 ≤ (x :: t).length := List.length_pos.mpr (List.cons_ne_nil x t)
      exact_mod_cast this
    linarith

/-- Helper: the sum of squared deviations of a one-element series from
its own mean is zero. -/
lemma sum_sq_singleton (x : ℚ) :
    (([x] : List ℚ).map (fun y => (y - series_mean [x]) ^ 2)).sum = 0 := by
  simp [series_mean]

/-- Claim C9: for every non-empty per-stock slice, the statistics record
consists of the arithmetic mean (`mean * n = Σ close`), the sample
standard deviation (non-negative, with `std² · (n - 1) = Σ (close -
mean)²`), the minimum and maximum of the slice's closing prices, and the
sum of its volumes — each computed only from that stock's own slice. -/
theorem stats_record_correct (df : List Row) (s : String)
    (hne : stock_data df s ≠ []) :
    ∃ rec : StockStats, stats_for df s = some rec ∧
      rec.stock = s ∧
      rec.mean_price * ((closes (stock_data df s)).length : ℚ) =
        (closes (stock_data df s)).sum ∧
      0 ≤ rec.std_dev ∧
      rec.std_dev ^ 2 * (((closes (stock_data df s)).length : ℝ) - 1) =
        ((((closes (stock_data df s)).map
            (fun x => (x - rec.mean_price) ^ 2)).sum : ℚ) : ℝ) ∧
      rec.min_price ∈ closes (stock_data df s) ∧
      (∀ x ∈ closes (stock_data df s), rec.min_price ≤ x) ∧
      rec.max_price ∈ closes (stock_data df s) ∧
      (∀ x ∈ closes (stock_data df s), x ≤ rec.max_price) ∧
      rec.total_volume = (volumes (stock_data df s)).sum := by
  cases hsd : stock_data df s with
  | nil => exact absurd hsd hne
  | cons r rest =>
    have hstats : stats_for df s =
        some { stock := s,
               mean_price := series_mean (closes (r :: rest)),
               std_dev := series_std (closes (r :: rest)),
               min_price := series_min (closes (r :: rest)),
               max_price := series_max (closes (r :: rest)),
               total_volume := (volumes (r :: rest)).sum } := by
      unfold stats_for
      split
      · rename_i heq
        rw [hsd] at heq
        cases heq
      · rename_i r2 rest2 heq
        rw [hsd] at heq
        cases heq
        rfl
    refine ⟨_, hstats, rfl, ?_, ?_, ?_, ?_, ?_, ?_, ?_, rfl⟩
    · -- mean * n = sum
      have hlen : ((closes (r :: rest)).length : ℚ) ≠ 0 := by
        have h : (closes (r :: rest)).length = rest.length + 1 := by
          simp [closes]
        rw [h]
        exact_mod_cast Nat.succ_ne_zero rest.length
      unfold series_mean
      exact div_mul_cancel₀ _ hlen
    · exact Real.sqrt_nonneg _
    · -- std² · (n - 1) = Σ (close - mean)²
      unfold series_std
      rw [Real.sq_sqrt (by exact_mod_cast series_var_sample_nonneg (closes (r :: rest)))]
      unfold series_var_sample
      push_cast
      set cs := closes (r :: rest) with hcs
      rcases Nat.lt_or_ge cs.length 2 with hlt | hge
      · -- singleton slice: both sides are zero
        have hpos : 0 < cs.length := by
          rw [hcs]
          simp [closes]
        have h1 : cs.length = 1 := by omega
        obtain ⟨x, hx⟩ := List.length_eq_one.mp h1
        rw [hx]
        have hm : series_mean [x] = x := by simp [series_mean]
        rw [hm]
        simp
      · have h2 : ((cs.length : ℝ) - 1) ≠ 0 := by
          have : (2 : ℝ) ≤ (cs.length : ℝ) := by exact_mod_cast hge
          linarith
        rw [div_mul_cancel₀ _ h2]
    · -- min is attained
      have h := foldl_min_mem (closes rest) r.close
      have hc : closes (r :: rest) = r.close :: closes rest := rfl
      rw [hc]
      simpa [series_min, hc] using h
    · -- min is a lower bound
      intro x hx
      have hc : closes (r :: rest) = r.close :: closes rest := rfl
      rw [hc] at hx
      have h := foldl_min_le (closes rest) r.close x hx
      simpa [series_min, hc] using h
    · -- max is attained
      have h := foldl_max_mem (closes rest) r.close
      have hc : closes (r :: rest) = r.close :: closes rest := rfl
      rw [hc]
      simpa [series_max, hc] using h
    · -- max is an upper bound
      intro x hx
      have hc : closes (r :: rest) = r.close :: closes rest := rfl
      rw [hc] at hx
      have h := foldl_max_ge (closes rest) r.close x hx
      simpa [series_max, hc] using h

/-- Witness for C9 at a concrete two-row slice. -/
theorem stats_record_correct_witness :
    stock_data [sampleA, sampleA2] "AAPL" ≠ [] ∧
      ∃ rec : StockStats, stats_for [sampleA, sampleA2] "AAPL" = some rec ∧
        rec.stock = "AAPL" ∧
        rec.total_volume = (volumes (stock_data [sampleA, sampleA2] "AAPL")).sum :=
  ⟨by decide, by
    obtain ⟨rec, h1, h2, _, _, _, _, _, _, _, h3⟩ :=
      stats_record_correct [sampleA, sampleA2] "AAPL" (by decide)
    exact ⟨rec, h1, h2, h3⟩⟩
